import Mathlib

/-!
Verification of the sagacity repository/document loading and resolution engine.

The definitions below are a shallow embedding of the Go sources:
  * `host.go` — the host record model (`Host`, `Category`, `HostType`,
    `HostInfo`) and document/category/host resolution (`HostInfo.Execute`,
    `Category.PrimaryHost`, `Category.GetHost`, `HostType.List`,
    `Host.hasHost`);
  * the repository tree builder (`Repo`, `NewRepo`, `Repo.walk`,
    `Repo.loadInfo`, `Repo.loadSubrepo`, `Repo.Execute`, `Repo.Keys`,
    `Repo.SubrepoKeys`) together with a faithful model of Go's
    `filepath.Walk` driver.

Go maps are modelled as association lists with unique keys (`setA` replaces
an existing binding in place, otherwise appends; `getA` finds the binding).
Go pointers that may be nil are modelled as `Option`; a `none` produced
where Go would panic (nil dereference, index out of range) is documented at
each site.  Concurrency: every spawned goroutine writes to a key of its own
node's map and the builder joins on a barrier before the node is read, so
the build is modelled by the sequential linearization in walk-discovery
order, which its result refines.
-/

/-! ## Association-list model of Go maps -/

/-- Go map assignment `m[k] = v`: replace the binding in place if the key is
present, otherwise add a new binding. -/
def setA {α : Type} (m : List (String × α)) (k : String) (v : α) :
    List (String × α) :=
  if m.any (fun p => p.1 == k) then
    m.map (fun p => if p.1 == k then (k, v) else p)
  else
    m ++ [(k, v)]

/-- Go map lookup `v, ok := m[k]`: the binding for `k`, if present. -/
def getA {α : Type} (m : List (String × α)) (k : String) : Option α :=
  (m.find? (fun p => p.1 == k)).map (fun p => p.2)

/-- Lexicographic comparison of character lists by code point, the order
`sort.Strings` uses (byte order and code-point order agree on the ASCII
identifiers this repository sorts). -/
def charListLe : List Char → List Char → Bool
  | [], _ => true
  | _ :: _, [] => false
  | a :: as, b :: bs =>
    if a.toNat < b.toNat then true
    else if b.toNat < a.toNat then false
    else charListLe as bs

/-- String comparison underlying `sort.Strings`. -/
def strLe (a b : String) : Bool :=
  charListLe a.toList b.toList

instance : IsTotal String (fun a b => strLe a b = true) := by
  constructor
  intro a b
  unfold strLe
  generalize a.toList = x
  generalize b.toList = y
  induction x generalizing y with
  | nil => left; rfl
  | cons c cs ih =>
    cases y with
    | nil => right; rfl
    | cons d ds =>
      by_cases h1 : c.toNat < d.toNat
      · left; simp [charListLe, h1]
      · by_cases h2 : d.toNat < c.toNat
        · right; simp [charListLe, h1, h2]
        · rcases ih ds with h | h
          · left; simp [charListLe, h1, h2, h]
          · right; simp [charListLe, h1, h2, h]

instance : IsTrans String (fun a b => strLe a b = true) := by
  constructor
  intro a b c
  unfold strLe
  generalize a.toList = x
  generalize b.toList = y
  generalize c.toList = z
  induction x generalizing y z with
  | nil => intro _ _; rfl
  | cons p ps ih =>
    cases y with
    | nil => intro h; simp [charListLe] at h
    | cons q qs =>
      cases z with
      | nil => intro _ h; simp [charListLe] at h
      | cons r rs =>
        intro h1 h2
        simp only [charListLe] at h1 h2 ⊢
        split_ifs at h1 h2 ⊢ <;> try rfl
        all_goals (first | exact ih qs rs h1 h2 | omega)

/-- Go `sort.Strings`: ascending sort of a string list. -/
def sortStrings (l : List String) : List String :=
  List.insertionSort (fun a b => strLe a b = true) l

/-! ## Host record model (`host.go`) -/

/-- `Host` — one machine record (host.go). -/
structure Host where
  FQDN : String
  Summary : String
  Kind : String
  Primary : Bool
deriving Repr, DecidableEq

/-- `Category` — a named group of hosts (host.go). -/
structure Category where
  Summary : String
  Primary : Bool
  Hosts : List Host
deriving Repr, DecidableEq

/-- `HostType` — the category map of one document (host.go,
`type HostType map[string]Category`), modelled as an association list with
unique keys. -/
abbrev HostType := List (String × Category)

/-- `HostInfo` — one loaded host document (host.go). The `id`/`path`/`repo`
fields play no part in resolution and are omitted. -/
structure HostInfo where
  RawType : String
  RawSummary : String
  Types : HostType
deriving DecidableEq

/-- Go map lookup `cat, ok := h[t]`. -/
def HostType.find (h : HostType) (t : String) : Option Category :=
  getA h t

/-- `HostType.List` (host.go): the category names, sorted by `sort.Strings`. -/
def HostType.List (h : HostType) : List String :=
  sortStrings (h.map (fun p => p.1))

/-- `Category.PrimaryHost` (host.go): first host whose `Primary` flag is set;
if none is set, `&c.Hosts[0]`.  The indexing of an empty list is Go's
index-out-of-range panic, modelled as `none`. -/
def Category.PrimaryHost (c : Category) : Option Host :=
  match c.Hosts.find? (fun host => host.Primary) with
  | some h => some h
  | none => c.Hosts.head?

/-- `Category.GetHost` (host.go): first host whose `FQDN` equals the argument;
the fall-through `return` yields the zero value of the named `*Host` result,
i.e. a nil pointer, modelled as `none`. -/
def Category.GetHost (c : Category) (fqdn : String) : Option Host :=
  c.Hosts.find? (fun host => host.FQDN == fqdn)

/-- `Host.hasHost` (host.go): true iff the `FQDN` field is non-empty.  Takes a
`Host` value; the Go receiver is a pointer, so calling it through a nil
pointer is a nil dereference (see `derefHasHost`). -/
def Host.hasHost (h : Host) : Bool :=
  h.FQDN != ""

/-- Calling `hasHost` through a possibly-nil `*Host`: on nil the body
`h.FQDN != ""` dereferences the nil pointer and panics (`Except.error`). -/
def derefHasHost : Option Host → Except Unit Bool
  | some h => Except.ok (Host.hasHost h)
  | none => Except.error ()

/-- Go `strconv.Atoi`: optional sign, then at least one decimal digit, value
within the 64-bit int range; anything else is an error (`none`). -/
def Atoi (s : String) : Option Int :=
  let signDigits : Int × List Char :=
    match s.toList with
    | '+' :: t => (1, t)
    | '-' :: t => (-1, t)
    | t => (1, t)
  let ds := signDigits.2
  if ds = [] then none
  else if ds.all (fun c => c.isDigit) then
    let n : Int := ds.foldl (fun a c => a * 10 + ((c.toNat : Int) - 48)) 0
    let v : Int := signDigits.1 * n
    if v < -(2 ^ 63) ∨ 2 ^ 63 - 1 < v then none else some v
  else none

/-- The observable outcome of `HostInfo.Execute` (host.go).  Process exit and
standard-stream effects are represented by the constructor:
`printTypes` is the zero-argument listing (`PrintType`), `sshHost h` the
terminal action (`host.Execute("")`, an ssh session to `h`), `fatalNonInt`
the `log.Fatal` on a non-integer index (exit status 1), `panicIndex` the
runtime index-out-of-range panic (exit status 2), `noSuchType` the
"No such type"/"Choices are" report followed by `os.Exit(1)`, and `nothing`
the fall-through of the `switch` when no case matches. -/
inductive ExecOutcome where
  | printTypes
  | sshHost (h : Host)
  | fatalNonInt (arg : String)
  | panicIndex
  | noSuchType (t : String) (choices : List String)
  | nothing
deriving Repr, DecidableEq

/-- Whether the outcome is the terminal host action. -/
def ExecOutcome.isHostAction : ExecOutcome → Bool
  | .sshHost _ => true
  | _ => false

/-- The process exit status implied by the outcome, when the outcome
terminates the process: `os.Exit(1)` after the "No such type" report,
exit status 1 from `log.Fatal`, exit status 2 from a runtime panic. -/
def ExecOutcome.exitStatus : ExecOutcome → Option Nat
  | .noSuchType _ _ => some 1
  | .fatalNonInt _ => some 1
  | .panicIndex => some 2
  | _ => none

/-- Whether the outcome terminates the process abnormally with a diagnostic
(`log.Fatal` or a runtime panic). -/
def ExecOutcome.isFatalStop : ExecOutcome → Bool
  | .fatalNonInt _ => true
  | .panicIndex => true
  | _ => false

/-- `HostInfo.Execute` (host.go): the `switch arglen` dispatch.
`case 0` prints the category listing; `case 1, 2` looks the first token up in
the category map — one token selects the category's primary host, two tokens
`strconv.Atoi` the second token and index `cat.Hosts`; an unknown category
prints the sorted choices and exits.  An argument count above two matches no
case and falls through. -/
def HostInfo.Execute (h : HostInfo) (args : List String) : ExecOutcome :=
  match args with
  | [] => ExecOutcome.printTypes
  | t :: rest =>
    if rest.length ≤ 1 then
      match HostType.find h.Types t with
      | some cat =>
        match rest with
        | [] =>
          (match Category.PrimaryHost cat with
           | some host => ExecOutcome.sshHost host
           | none => ExecOutcome.panicIndex)
        | tok :: _ =>
          match Atoi tok with
          | none => ExecOutcome.fatalNonInt tok
          | some x =>
            if hx : 0 ≤ x ∧ x.toNat < cat.Hosts.length then
              ExecOutcome.sshHost (cat.Hosts.get ⟨x.toNat, hx.2⟩)
            else
              ExecOutcome.panicIndex
      | none => ExecOutcome.noSuchType t (HostType.List h.Types)
    else
      ExecOutcome.nothing

/-! ## The sample inventory (the repository's example document) -/

def db1c6 : Host := { FQDN := "db1.cluster6.company.net", Summary := "", Kind := "", Primary := true }
def db2 : Host := { FQDN := "db2.cluster3.company.net", Summary := "", Kind := "", Primary := false }
def db5 : Host := { FQDN := "db5.cluster3.company.net", Summary := "", Kind := "", Primary := false }
def db6 : Host := { FQDN := "db6.cluster3.company.net", Summary := "", Kind := "", Primary := false }
def db4 : Host := { FQDN := "db4.cluster3.company.net", Summary := "Designated for long queries", Kind := "longquery", Primary := true }
def db7 : Host := { FQDN := "db7.cluster3.company.net", Summary := "", Kind := "", Primary := false }
def db8 : Host := { FQDN := "db8.cluster3.company.net", Summary := "", Kind := "", Primary := true }
def db1c3 : Host := { FQDN := "db1.cluster3.company.net", Summary := "Hot standby, disaster recovery only", Kind := "disaster", Primary := false }
def taskdb1 : Host := { FQDN := "taskdb1.cluster6.company.net", Summary := "", Kind := "", Primary := false }
def taskdb2 : Host := { FQDN := "taskdb2.cluster6.company.net", Summary := "", Kind := "", Primary := false }

def masterCat : Category := { Summary := "Master database, read/write", Primary := true, Hosts := [db1c6] }
def roCat : Category := { Summary := "Read-only slaves", Primary := false, Hosts := [db2, db5, db6, db4] }
def walCat : Category := { Summary := "WAL archive storage machines", Primary := false, Hosts := [db7] }
def standbyCat : Category := { Summary := "Hot standby machines", Primary := false, Hosts := [db8, db1c3] }
def taskCat : Category := { Summary := "task-only db machines", Primary := false, Hosts := [taskdb1, taskdb2] }

def sampleTypes : HostType :=
  [("master", masterCat), ("ro", roCat), ("wal", walCat),
   ("standby", standbyCat), ("task", taskCat)]

def sampleInfo : HostInfo :=
  { RawType := "host", RawSummary := "PostgreSQL database machines", Types := sampleTypes }

/-! ## Repository tree model (the repo source file and Go's filepath.Walk) -/

/-- Modelled from the spec: the document record returned by the Document
Loader (spec §3, §4.2) — the `Info` type lives in a source file that is not
among the provided sources.  Only the identity field (final path component,
extension stripped) takes part in tree construction, so the other document
fields are not modelled. -/
structure Info where
  ID : String
deriving Repr, DecidableEq

/-- Whether the first character list starts with the second
(Go `strings.HasPrefix` over the characters). -/
def beginsWithL : List Char → List Char → Bool
  | _, [] => true
  | [], _ :: _ => false
  | a :: as, b :: bs => a == b && beginsWithL as bs

/-- Go `strings.HasPrefix`. -/
def strBegins (s pre : String) : Bool :=
  beginsWithL s.toList pre.toList

/-- Go `strings.HasSuffix`. -/
def strEnds (s suf : String) : Bool :=
  beginsWithL s.toList.reverse suf.toList.reverse

/-- `filepath.Base`: the final component of a slash-separated path (the
characters after the last slash; the model's paths are nonempty and carry no
trailing slash). -/
def baseName (p : String) : String :=
  String.mk (p.toList.foldl (fun acc c => if c == '/' then [] else acc ++ [c]) [])

/-- Modelled from the spec: the identity derivation rule (spec §3)
implemented by the `asKey` helper of the missing source file — take the
final path component and strip a trailing `.yaml`. -/
def asKey (p : String) : String :=
  let b := (baseName p).toList
  if strEnds (baseName p) ".yaml" then String.mk (b.take (b.length - 5)) else String.mk b

/-- Modelled from the spec: the Document Loader `LoadInfo` (spec §4.2),
which lives in a source file that is not provided.  Given the path and
whether the file's content parses, it returns the pair that Go's
`info, err := LoadInfo(path)` binds: on success, the document with identity
derived from the path, and no error; on failure, an error together with the
zero value of the document type (empty identity), per Go convention for an
`(Info, error)` return. -/
def LoadInfo (path : String) (parses : Bool) : Info × Bool :=
  if parses then ({ ID := asKey path }, false) else ({ ID := "" }, true)

/-- A filesystem subtree as the walk observes it: a regular file (recording
whether its content parses as a document), a directory with its entries, or
an entry on which `lstat` fails with a traversal error. -/
inductive FSNode where
  | file (name : String) (parses : Bool)
  | dir (name : String) (children : List FSNode)
  | errEnt (name : String)

def FSNode.name : FSNode → String
  | .file n _ => n
  | .dir n _ => n
  | .errEnt n => n

def FSNode.isDir : FSNode → Bool
  | .dir _ _ => true
  | _ => false

/-- Whether `lstat` on the entry fails. -/
def FSNode.isErr : FSNode → Bool
  | .errEnt _ => true
  | _ => false

/-- Whether loading the entry as a document succeeds: a parsing regular
file.  (Opening a directory as a document fails.) -/
def FSNode.parses : FSNode → Bool
  | .file _ b => b
  | _ => false

/-- Go's `readDirNames` sorts a directory's entries by name before the walk
visits them. -/
def sortFS (l : List FSNode) : List FSNode :=
  List.insertionSort (fun a b => strLe (FSNode.name a) (FSNode.name b) = true) l

theorem sizeOf_perm_fs {l l' : List FSNode} (h : l.Perm l') : sizeOf l = sizeOf l' := by
  induction h with
  | nil => rfl
  | cons x _ ih => simp [ih]
  | swap x y l => simp; omega
  | trans _ _ ih1 ih2 => omega

theorem sizeOf_sortFS (l : List FSNode) : sizeOf (sortFS l) = sizeOf l :=
  sizeOf_perm_fs (List.perm_insertionSort _ l)

/-- `Repo` — a repository tree node (repo source file): identity, document
map, control map, sub-repository map.  The `root` path and the join barrier
(`wg`) are bookkeeping of the build, not part of the finished node. -/
inductive Repo where
  | mk (Key : String) (docs : List (String × Info)) (ctrl : List (String × Info))
      (subs : List (String × Repo))

/-- A document map: document identity to document. -/
abbrev InfoMap := List (String × Info)

def Repo.Key : Repo → String
  | .mk k _ _ _ => k

def Repo.Info : Repo → InfoMap
  | .mk _ i _ _ => i

def Repo.Control : Repo → InfoMap
  | .mk _ _ c _ => c

def Repo.Subrepos : Repo → List (String × Repo)
  | .mk _ _ _ s => s

/-- The mutable state of one node's build: the three maps of the node under
construction plus the log output (Go logs to the global logger; the model
accumulates the messages). -/
structure BuildSt where
  Info : InfoMap
  Control : InfoMap
  Subrepos : List (String × Repo)
  logs : List String

/-- The pre-allocated empty maps of `NewRepo`. -/
def initSt : BuildSt :=
  { Info := [], Control := [], Subrepos := [], logs := [] }

/-- The diagnostic `Repo.walk` logs on a traversal error. -/
def walkErrMsg : String := "walk error"

/-- The diagnostic `Repo.loadInfo` logs on a document load failure. -/
def loadErrMsg : String := "Failed to load info"

/-- A non-nil Go error value circulating inside the walk:
`filepath.SkipDir` or a real filesystem error. -/
inductive WErr where
  | skipDir
  | fsErr
deriving Repr, DecidableEq

/-- `Repo.loadInfo` (repo source file): load the document at `path`, log any
error from `LoadInfo` — and nothing else, there being no early return — then
file the received document value into the control map (key derived from the
path starts with an underscore) or the ordinary document map, under the
document's own identity. -/
def loadInfoSt (st : BuildSt) (path : String) (ok : Bool) : BuildSt :=
  let r := LoadInfo path ok
  let st1 := if r.2 then { st with logs := st.logs ++ [loadErrMsg] } else st
  if strBegins (asKey path) "_" then
    { st1 with Control := setA st1.Control r.1.ID r.1 }
  else
    { st1 with Info := setA st1.Info r.1.ID r.1 }

mutual

/-- `NewRepo` (repo source file): build the node for the subtree `n` rooted
at `path` — allocate empty maps, run `filepath.Walk(root, r.walk)` ignoring
its return value, join the barrier, and return the populated node.  The
concurrently spawned document loads and sub-repository builds are applied in
walk discovery order, a linearization of the disjoint-key concurrent
writes (see the header comment). -/
def NewRepo (path : String) (n : FSNode) : Repo :=
  let st := (filepathWalk path n).1
  Repo.mk (asKey path) st.Info st.Control st.Subrepos
termination_by 16 * sizeOf n + 3
decreasing_by
  all_goals simp_wf
  all_goals omega

/-- Go `filepath.Walk(root, walkFn)`: stat the root — calling the walk
function directly with the error if the stat fails, the `walk` helper
otherwise — and turn a `SkipDir` result into success. -/
def filepathWalk (root : String) (n : FSNode) : BuildSt × Option WErr :=
  let res :=
    if FSNode.isErr n then repoWalkFn root root n true initSt
    else walkGo root root n initSt
  if res.2 = some WErr.skipDir then (res.1, none) else res
termination_by 16 * sizeOf n + 2
decreasing_by
  all_goals simp_wf
  all_goals simp
  all_goals omega

/-- Go's internal `walk(path, info, walkFn)` helper: call the walk function
on the entry itself — a `SkipDir` return from a directory ends its walk
without error, any other non-nil return propagates — then, for a directory,
loop over its entries in sorted order. -/
def walkGo (root path : String) (n : FSNode) (st : BuildSt) : BuildSt × Option WErr :=
  let r1 := repoWalkFn root path n false st
  if r1.2 = none then
    match n with
    | FSNode.dir _ cs => walkList root path (sortFS cs) r1.1
    | _ => (r1.1, none)
  else if FSNode.isDir n = true ∧ r1.2 = some WErr.skipDir then (r1.1, none)
  else r1
termination_by 16 * sizeOf n + 4 * (if path = root then 0 else 1) + 1
decreasing_by
  all_goals simp_wf
  all_goals (try simp only [sizeOf_sortFS])
  all_goals first
    | omega
    | (split <;> omega)

/-- The entry loop of Go's `walk` helper: an entry whose `lstat` fails is
reported to the walk function with the error, and a non-`SkipDir` error
return aborts the loop; otherwise the helper recurses into the entry, a
non-`SkipDir` error aborts the loop, and `SkipDir` returned from a
non-directory entry also aborts it (skipping the remaining entries of the
containing directory). -/
def walkList (root path : String) (cs : List FSNode) (st : BuildSt) : BuildSt × Option WErr :=
  match cs with
  | [] => (st, none)
  | FSNode.errEnt nm :: rest =>
    let r := repoWalkFn root (path ++ "/" ++ nm) (FSNode.errEnt nm) true st
    if r.2 ≠ none ∧ r.2 ≠ some WErr.skipDir then r
    else walkList root path rest r.1
  | c :: rest =>
    let r := walkGo root (path ++ "/" ++ FSNode.name c) c st
    if r.2 ≠ none ∧ (FSNode.isDir c = false ∨ r.2 ≠ some WErr.skipDir) then r
    else walkList root path rest r.1
termination_by 16 * sizeOf cs + 8
decreasing_by
  all_goals simp_wf
  all_goals first
    | omega
    | (split <;> omega)

/-- `Repo.walk` (repo source file), the walk function handed to
`filepath.Walk`: log a traversal error and return it; return `SkipDir` for
any entry whose base name starts with a dot; treat a non-root directory as a
sub-repository boundary — spawn `loadSubrepo`, i.e. build the child node and
file it under its derived key — and return `SkipDir`; spawn `loadInfo` for
any path ending in `.yaml`. -/
def repoWalkFn (root path : String) (n : FSNode) (inErr : Bool) (st : BuildSt) :
    BuildSt × Option WErr :=
  if inErr then
    ({ st with logs := st.logs ++ [walkErrMsg] }, some WErr.fsErr)
  else if strBegins (baseName path) "." then
    (st, some WErr.skipDir)
  else if h : FSNode.isDir n = true ∧ path ≠ root then
    let nr := NewRepo path n
    ({ st with Subrepos := setA st.Subrepos (Repo.Key nr) nr }, some WErr.skipDir)
  else if strEnds path ".yaml" then
    (loadInfoSt st path (FSNode.parses n), none)
  else
    (st, none)
termination_by 16 * sizeOf n + 4 * (if path = root then 0 else 1)
decreasing_by
  simp_wf
  split
  · rename_i hc
    exact absurd hc h.2
  · omega

end

/-- The log lines produced while building one node. -/
def NewRepoLogs (path : String) (n : FSNode) : List String :=
  (filepathWalk path n).1.logs

/-- `Repo.Keys` (repo source file): the IDs of the document map's values,
sorted by `sort.Strings`. -/
def Repo.Keys (r : Repo) : List String :=
  sortStrings ((Repo.Info r).map (fun p => p.2.ID))

/-- `Repo.SubrepoKeys` (repo source file): the keys of the sub-repository
map's values, sorted by `sort.Strings`. -/
def Repo.SubrepoKeys (r : Repo) : List String :=
  sortStrings ((Repo.Subrepos r).map (fun p => Repo.Key p.2))

/-- The terminal behavior of `Repo.Execute`: either hand a matched document
and the remaining tokens to document resolution — the tokens handed over are
modelled from the spec (§4.5), the `info.Execute()` call living in the
source file that is not provided — or print a node's sub-repository listing
followed by its document listing. -/
inductive RepoOutcome where
  | docResolution (i : Info) (rest : List String)
  | listing (subKeys : List String) (docKeys : List String)
deriving Repr, DecidableEq

/-- The zero value of `Repo`: what the two-valued map read
`repo, ok = repo.Subrepos[arg]` leaves in `repo` when the key is absent. -/
def zeroRepo : Repo := Repo.mk "" [] [] []

/-- `Repo.Execute` (repo source file): consume tokens left to right — a
token matching a document key ends the descent with document resolution on
the remaining tokens; a token matching a sub-repository key advances the
cursor to that child; otherwise the two-valued map read has already
overwritten the cursor with the zero value and the loop breaks.  After the
loop, print the cursor's sub-repository listing, then its document listing.
`args` models `c.Args()[1:]`, the tokens left after the one that selected
this repository. -/
def Repo.Execute : Repo → List String → RepoOutcome
  | repo, [] => RepoOutcome.listing (Repo.SubrepoKeys repo) (Repo.Keys repo)
  | repo, arg :: rest =>
    match getA (Repo.Info repo) arg with
    | some info => RepoOutcome.docResolution info rest
    | none =>
      match getA (Repo.Subrepos repo) arg with
      | some sub => Repo.Execute sub rest
      | none => RepoOutcome.listing (Repo.SubrepoKeys zeroRepo) (Repo.Keys zeroRepo)

/-! ## Concrete filesystems and nodes used by the tree claims -/

/-- A node with one unparsable and one good document. -/
def fsBadDoc : FSNode :=
  FSNode.dir "r" [FSNode.file "bad.yaml" false, FSNode.file "good.yaml" true]

/-- A node with a traversal error sorting before a good document. -/
def fsErrFirst : FSNode :=
  FSNode.dir "r" [FSNode.errEnt "a", FSNode.file "b.yaml" true]

/-- A node with a good document sorting before a traversal error. -/
def fsErrLast : FSNode :=
  FSNode.dir "r" [FSNode.file "a.yaml" true, FSNode.errEnt "c"]

/-- A node with a hidden file sorting before a good document. -/
def fsHiddenFile : FSNode :=
  FSNode.dir "r" [FSNode.file ".a" true, FSNode.file "b.yaml" true]

/-- A node with a hidden directory (containing a well-formed document file)
next to a good document. -/
def fsHiddenDir : FSNode :=
  FSNode.dir "r" [FSNode.dir ".git" [FSNode.file "x.yaml" true], FSNode.file "b.yaml" true]

/-- A hand-built node with one document and one sub-repository, for the
resolver claims. -/
def topRepo : Repo :=
  Repo.mk "top" [("doc", { ID := "doc" })] [] [("sub", Repo.mk "sub" [] [] [])]

/-! ## Helper lemmas -/

theorem find?_first {α : Type} (p : α → Bool) (l : List α) :
    ∀ (i : Nat) (hi : i < l.length),
      p (l.get ⟨i, hi⟩) = true →
      (∀ (j : Nat) (hj : j < l.length), j < i → p (l.get ⟨j, hj⟩) = false) →
      l.find? p = some (l.get ⟨i, hi⟩) := by
  induction l with
  | nil => intro i hi; simp at hi
  | cons a t ih =>
    intro i hi hp hmin
    cases i with
    | zero =>
      have hp' : p a = true := by simpa using hp
      simp [List.find?_cons_of_pos _ hp']
    | succ k =>
      have ha : p a = false := by simpa using hmin 0 (by simp) (by omega)
      have ht := ih k (by simpa using hi) (by simpa using hp)
        (fun j hj hjk => by simpa using hmin (j + 1) (by simpa using hj) (by omega))
      rw [List.find?_cons_of_neg _ (by simp [ha])]
      exact ht

/-- C1: zero-token (default) selection on a category found in the document's
category map yields the first host in declaration order whose primary flag is
set, and, for a non-empty host list with no primary-flagged host, the host at
index 0. -/
theorem c1_zero_token_primary_selection (h : HostInfo) (t : String) (cat : Category)
    (hfind : HostType.find h.Types t = some cat) :
    (∀ (i : Nat) (hi : i < cat.Hosts.length),
        (cat.Hosts.get ⟨i, hi⟩).Primary = true →
        (∀ (j : Nat) (hj : j < cat.Hosts.length), j < i →
            (cat.Hosts.get ⟨j, hj⟩).Primary = false) →
        HostInfo.Execute h [t] = ExecOutcome.sshHost (cat.Hosts.get ⟨i, hi⟩))
    ∧ ((∀ host ∈ cat.Hosts, host.Primary = false) →
        ∀ hne : 0 < cat.Hosts.length,
        HostInfo.Execute h [t] = ExecOutcome.sshHost (cat.Hosts.get ⟨0, hne⟩)) := by
  constructor
  · intro i hi hp hmin
    have hfd := find?_first (fun host => host.Primary) cat.Hosts i hi hp hmin
    simp [HostInfo.Execute, hfind, Category.PrimaryHost, hfd]
  · intro hall hne
    have hfd : cat.Hosts.find? (fun host => host.Primary) = none := by
      rw [List.find?_eq_none]
      intro x hx
      simp [hall x hx]
    have hhead : cat.Hosts.head? = some (cat.Hosts.get ⟨0, hne⟩) := by
      rw [List.head?_eq_getElem?, List.getElem?_eq_getElem hne]
      simp [List.get_eq_getElem]
    simp [HostInfo.Execute, hfind, Category.PrimaryHost, hfd, hhead]

/-- Witness for C1 on the sample inventory: category ro has its only primary
host at index 3 (db4), category wal has no primary host and one host. -/
theorem c1_witness :
    HostInfo.Execute sampleInfo ["ro"] = ExecOutcome.sshHost db4
    ∧ HostInfo.Execute sampleInfo ["wal"] = ExecOutcome.sshHost db7 := by
  constructor
  · exact (c1_zero_token_primary_selection sampleInfo "ro" roCat (by decide)).1 3
      (by decide) (by decide) (by decide)
  · exact (c1_zero_token_primary_selection sampleInfo "wal" walCat (by decide)).2
      (by decide) (by decide)

/-- C2: with a valid category and a second token, an index parsing inside
`[0, len(hosts))` selects exactly that host; a non-numeric token is the
`log.Fatal` stop and a parsed index outside the range is the
index-out-of-range panic — both terminate the process with a diagnostic and
perform no host action. -/
theorem c2_indexed_selection (h : HostInfo) (t tok : String) (cat : Category)
    (hfind : HostType.find h.Types t = some cat) :
    (∀ (x : Int), Atoi tok = some x → 0 ≤ x →
        ∀ hx : x.toNat < cat.Hosts.length,
        HostInfo.Execute h [t, tok] = ExecOutcome.sshHost (cat.Hosts.get ⟨x.toNat, hx⟩))
    ∧ (Atoi tok = none →
        HostInfo.Execute h [t, tok] = ExecOutcome.fatalNonInt tok
        ∧ ExecOutcome.isHostAction (HostInfo.Execute h [t, tok]) = false
        ∧ ExecOutcome.isFatalStop (HostInfo.Execute h [t, tok]) = true)
    ∧ (∀ (x : Int), Atoi tok = some x → (x < 0 ∨ cat.Hosts.length ≤ x.toNat) →
        HostInfo.Execute h [t, tok] = ExecOutcome.panicIndex
        ∧ ExecOutcome.isHostAction (HostInfo.Execute h [t, tok]) = false
        ∧ ExecOutcome.isFatalStop (HostInfo.Execute h [t, tok]) = true) := by
  refine ⟨?_, ?_, ?_⟩
  · intro x hx h0 hlt
    have hcond : 0 ≤ x ∧ x.toNat < cat.Hosts.length := ⟨h0, hlt⟩
    simp [HostInfo.Execute, hfind, hx, hcond]
  · intro hx
    have hex : HostInfo.Execute h [t, tok] = ExecOutcome.fatalNonInt tok := by
      simp [HostInfo.Execute, hfind, hx]
    exact ⟨hex, by simp [hex, ExecOutcome.isHostAction], by simp [hex, ExecOutcome.isFatalStop]⟩
  · intro x hx hout
    have hneg : ¬ (0 ≤ x ∧ x.toNat < cat.Hosts.length) := by
      rcases hout with hlt | hge
      · intro hc; omega
      · intro hc; omega
    have hex : HostInfo.Execute h [t, tok] = ExecOutcome.panicIndex := by
      simp [HostInfo.Execute, hfind, hx, hneg]
    exact ⟨hex, by simp [hex, ExecOutcome.isHostAction], by simp [hex, ExecOutcome.isFatalStop]⟩

/-- Witness for C2 on the sample inventory: the task category has two hosts,
index 1 selects taskdb2, index 5 is out of range, token z is non-numeric. -/
theorem c2_witness :
    HostInfo.Execute sampleInfo ["task", "1"] = ExecOutcome.sshHost taskdb2
    ∧ HostInfo.Execute sampleInfo ["task", "5"] = ExecOutcome.panicIndex
    ∧ HostInfo.Execute sampleInfo ["task", "z"] = ExecOutcome.fatalNonInt "z" := by
  refine ⟨?_, ?_, ?_⟩
  · exact (c2_indexed_selection sampleInfo "task" "1" taskCat (by decide)).1 1
      (by decide) (by decide) (by decide)
  · exact ((c2_indexed_selection sampleInfo "task" "5" taskCat (by decide)).2.2 5
      (by decide) (by decide)).1
  · exact ((c2_indexed_selection sampleInfo "task" "z" taskCat (by decide)).2.1
      (by decide)).1

/-- C7: an unknown category token (with one or two remaining tokens) reports
the invalid choice together with the sorted list of valid category names,
exits with status 1, and performs no host action. -/
theorem c7_unknown_category (h : HostInfo) (t : String) (rest : List String)
    (hfind : HostType.find h.Types t = none) (hlen : rest.length ≤ 1) :
    HostInfo.Execute h (t :: rest) = ExecOutcome.noSuchType t (HostType.List h.Types)
    ∧ List.Sorted (fun a b => strLe a b = true) (HostType.List h.Types)
    ∧ ExecOutcome.isHostAction (HostInfo.Execute h (t :: rest)) = false
    ∧ ExecOutcome.exitStatus (HostInfo.Execute h (t :: rest)) = some 1 := by
  have hex : HostInfo.Execute h (t :: rest) = ExecOutcome.noSuchType t (HostType.List h.Types) := by
    simp [HostInfo.Execute, hlen, hfind]
  refine ⟨hex, ?_, by simp [hex, ExecOutcome.isHostAction], by simp [hex, ExecOutcome.exitStatus]⟩
  exact List.sorted_insertionSort _ _

/-- Witness for C7: an unknown category on the sample inventory. -/
theorem c7_witness :
    HostInfo.Execute sampleInfo ["nosuch"] =
      ExecOutcome.noSuchType "nosuch" ["master", "ro", "standby", "task", "wal"]
    ∧ ExecOutcome.exitStatus (HostInfo.Execute sampleInfo ["nosuch"]) = some 1 := by
  have h := c7_unknown_category sampleInfo "nosuch" [] (by decide) (by decide)
  exact ⟨h.1, h.2.2.2⟩

/-- Counterexample to C8: with three remaining tokens, a valid category and
in-range index do not lead to the host action — the switch matches no case
and resolution does nothing, unlike the two-token call. -/
theorem c8_counterexample :
    HostInfo.Execute sampleInfo ["task", "1", "x"] = ExecOutcome.nothing
    ∧ HostInfo.Execute sampleInfo ["task", "1"] = ExecOutcome.sshHost taskdb2
    ∧ HostInfo.Execute sampleInfo ["task", "1", "x"] ≠ HostInfo.Execute sampleInfo ["task", "1"] :=
  ⟨by decide, by decide, by decide⟩

/-- C8 amended: when resolution receives more than two remaining tokens, no
case of the argument-count switch matches, so resolution does nothing at all
— no listing, no diagnostic and no host action. -/
theorem c8_amended_extra_tokens (h : HostInfo) (args : List String)
    (hlen : 3 ≤ args.length) :
    HostInfo.Execute h args = ExecOutcome.nothing
    ∧ ExecOutcome.isHostAction (HostInfo.Execute h args) = false := by
  match args with
  | [] => simp at hlen
  | t :: rest =>
    have hr : ¬ rest.length ≤ 1 := by
      simp only [List.length_cons] at hlen
      omega
    constructor <;> simp [HostInfo.Execute, hr, ExecOutcome.isHostAction]

/-- Witness for the amended C8. -/
theorem c8_witness :
    HostInfo.Execute sampleInfo ["standby", "0", "extra"] = ExecOutcome.nothing :=
  (c8_amended_extra_tokens sampleInfo ["standby", "0", "extra"] (by decide)).1

/-- Counterexample to C9: on a category with no matching FQDN, GetHost does
not return an unpopulated Host on which hasValue is false — it returns a nil
pointer (none), and running the hasValue check through it is a nil
dereference panic. -/
theorem c9_counterexample :
    Category.GetHost walCat "nope" = none
    ∧ derefHasHost (Category.GetHost walCat "nope") = Except.error ()
    ∧ ¬ ∃ hst, Category.GetHost walCat "nope" = some hst ∧ Host.hasHost hst = false := by
  refine ⟨by decide, rfl, ?_⟩
  rintro ⟨hst, heq, -⟩
  have hnone : Category.GetHost walCat "nope" = none := by decide
  rw [hnone] at heq
  cases heq

/-- C9 amended: GetHost returns the first host of the category whose FQDN
equals the string when one exists; when no host matches it returns nil (an
explicit absence), and the hasValue check cannot be applied to that result —
dereferencing the nil pointer panics instead of reporting false. -/
theorem c9_amended_gethost (c : Category) (fqdn : String) :
    ((∃ hst ∈ c.Hosts, hst.FQDN = fqdn) →
        ∃ hst, Category.GetHost c fqdn = some hst ∧ hst.FQDN = fqdn ∧ hst ∈ c.Hosts)
    ∧ ((∀ hst ∈ c.Hosts, hst.FQDN ≠ fqdn) →
        Category.GetHost c fqdn = none
        ∧ derefHasHost (Category.GetHost c fqdn) = Except.error ()) := by
  constructor
  · rintro ⟨hst, hmem, heq⟩
    have hsome : (c.Hosts.find? (fun host => host.FQDN == fqdn)).isSome := by
      rw [List.find?_isSome]
      exact ⟨hst, hmem, by simp [heq]⟩
    rcases Option.isSome_iff_exists.mp hsome with ⟨res, hres⟩
    refine ⟨res, hres, ?_, List.mem_of_find?_eq_some hres⟩
    have hp := List.find?_some hres
    simpa using hp
  · intro hall
    have hn : c.Hosts.find? (fun host => host.FQDN == fqdn) = none := by
      rw [List.find?_eq_none]
      intro x hx
      simp [hall x hx]
    exact ⟨hn, by simp [derefHasHost, Category.GetHost, hn]⟩

/-- Witness for the amended C9 on the wal category. -/
theorem c9_witness :
    (∃ hst, Category.GetHost walCat "db7.cluster3.company.net" = some hst
        ∧ hst.FQDN = "db7.cluster3.company.net" ∧ hst ∈ walCat.Hosts)
    ∧ (Category.GetHost walCat "nomatch.example" = none
        ∧ derefHasHost (Category.GetHost walCat "nomatch.example") = Except.error ()) := by
  constructor
  · exact (c9_amended_gethost walCat "db7.cluster3.company.net").1 ⟨db7, by decide, by decide⟩
  · exact (c9_amended_gethost walCat "nomatch.example").2 (by decide)

/-- C10: default (primary-or-first) selection is total exactly on non-empty
host lists — PrimaryHost reaches the out-of-bounds indexing of position 0
(modelled as none) if and only if the category's host list is empty. -/
theorem c10_primaryhost_totality (c : Category) :
    Category.PrimaryHost c = none ↔ c.Hosts = [] := by
  obtain ⟨s, p, hosts⟩ := c
  cases hosts with
  | nil => simp [Category.PrimaryHost]
  | cons a l =>
    simp only [Category.PrimaryHost]
    cases hf : List.find? (fun host => host.Primary) (a :: l) with
    | none => simp
    | some hst => simp

/-! ## Step lemmas for the walk -/

theorem walkList_nil (root path : String) (st : BuildSt) :
    walkList root path [] st = (st, none) := by
  simp [walkList]

theorem walkList_errEnt (root path nm : String) (rest : List FSNode) (st : BuildSt) :
    walkList root path (FSNode.errEnt nm :: rest) st
      = ({ st with logs := st.logs ++ [walkErrMsg] }, some WErr.fsErr) := by
  simp [walkList, repoWalkFn]

theorem walkList_file (root path nm : String) (pb : Bool) (rest : List FSNode) (st : BuildSt)
    (hdot : strBegins (baseName (path ++ "/" ++ nm)) "." = false)
    (hyaml : strEnds (path ++ "/" ++ nm) ".yaml" = true) :
    walkList root path (FSNode.file nm pb :: rest) st
      = walkList root path rest (loadInfoSt st (path ++ "/" ++ nm) pb) := by
  simp [walkList, walkGo, repoWalkFn, FSNode.name, FSNode.isDir, FSNode.parses, hdot, hyaml]

theorem walkList_hidden_file (root path nm : String) (pb : Bool) (rest : List FSNode)
    (st : BuildSt) (hdot : strBegins (baseName (path ++ "/" ++ nm)) "." = true) :
    walkList root path (FSNode.file nm pb :: rest) st = (st, some WErr.skipDir) := by
  simp [walkList, walkGo, repoWalkFn, FSNode.name, FSNode.isDir, hdot]

theorem walkList_hidden_dir (root path nm : String) (cs rest : List FSNode) (st : BuildSt)
    (hdot : strBegins (baseName (path ++ "/" ++ nm)) "." = true) :
    walkList root path (FSNode.dir nm cs :: rest) st = walkList root path rest st := by
  simp [walkList, walkGo, repoWalkFn, FSNode.name, FSNode.isDir, hdot]

theorem walkList_subrepo (root path nm : String) (cs rest : List FSNode) (st : BuildSt)
    (hdot : strBegins (baseName (path ++ "/" ++ nm)) "." = false)
    (hroot : ¬ path ++ "/" ++ nm = root) :
    walkList root path (FSNode.dir nm cs :: rest) st
      = walkList root path rest
          { st with Subrepos :=
              (setA st.Subrepos (Repo.Key (NewRepo (path ++ "/" ++ nm) (FSNode.dir nm cs)))
                (NewRepo (path ++ "/" ++ nm) (FSNode.dir nm cs))) } := by
  simp [walkList, walkGo, repoWalkFn, FSNode.name, FSNode.isDir, hdot, hroot]

theorem walkGo_root_dir (root nm : String) (cs : List FSNode) (st : BuildSt)
    (hdot : strBegins (baseName root) "." = false)
    (hyaml : strEnds root ".yaml" = false) :
    walkGo root root (FSNode.dir nm cs) st = walkList root root (sortFS cs) st := by
  simp [walkGo, repoWalkFn, FSNode.isDir, hdot, hyaml]

theorem filepathWalk_dir (root nm : String) (cs : List FSNode) (st : BuildSt) (e : Option WErr)
    (hw : walkGo root root (FSNode.dir nm cs) initSt = (st, e)) :
    filepathWalk root (FSNode.dir nm cs) = (st, if e = some WErr.skipDir then none else e) := by
  simp [filepathWalk, FSNode.isErr, hw]
  split <;> simp

theorem NewRepo_eq (path : String) (n : FSNode) (st : BuildSt) (e : Option WErr)
    (hw : filepathWalk path n = (st, e)) :
    NewRepo path n = Repo.mk (asKey path) st.Info st.Control st.Subrepos := by
  simp [NewRepo, hw]

theorem NewRepoLogs_eq (path : String) (n : FSNode) (st : BuildSt) (e : Option WErr)
    (hw : filepathWalk path n = (st, e)) :
    NewRepoLogs path n = st.logs := by
  rw [NewRepoLogs, hw]

/-! ## Concrete walk evaluations -/

theorem walk_fsBadDoc :
    filepathWalk "r" fsBadDoc
      = ({ Info := [("", { ID := "" }), ("good", { ID := "good" })], Control := [],
           Subrepos := [], logs := [loadErrMsg] }, none) := by
  have h1 : walkGo "r" "r" fsBadDoc initSt
      = walkList "r" "r" [FSNode.file "bad.yaml" false, FSNode.file "good.yaml" true] initSt := by
    rw [show fsBadDoc = FSNode.dir "r" [FSNode.file "bad.yaml" false, FSNode.file "good.yaml" true]
          from rfl,
        walkGo_root_dir "r" "r" _ initSt (by decide) (by decide)]
    rfl
  rw [walkList_file "r" "r" "bad.yaml" false _ initSt (by decide) (by decide)] at h1
  rw [show loadInfoSt initSt ("r" ++ "/" ++ "bad.yaml") false
        = { Info := [("", { ID := "" })], Control := [], Subrepos := [], logs := [loadErrMsg] }
      from rfl] at h1
  rw [walkList_file "r" "r" "good.yaml" true _ _ (by decide) (by decide)] at h1
  rw [show loadInfoSt
        { Info := [("", { ID := "" })], Control := [], Subrepos := [], logs := [loadErrMsg] }
        ("r" ++ "/" ++ "good.yaml") true
        = { Info := [("", { ID := "" }), ("good", { ID := "good" })], Control := [],
            Subrepos := [], logs := [loadErrMsg] }
      from rfl] at h1
  rw [walkList_nil] at h1
  rw [show fsBadDoc = FSNode.dir "r" [FSNode.file "bad.yaml" false, FSNode.file "good.yaml" true]
        from rfl,
      filepathWalk_dir "r" "r" _ _ _ h1]
  rfl

theorem walk_fsErrFirst :
    filepathWalk "r" fsErrFirst
      = ({ Info := [], Control := [], Subrepos := [], logs := [walkErrMsg] }, some WErr.fsErr) := by
  have h1 : walkGo "r" "r" fsErrFirst initSt
      = walkList "r" "r" [FSNode.errEnt "a", FSNode.file "b.yaml" true] initSt := by
    rw [show fsErrFirst = FSNode.dir "r" [FSNode.errEnt "a", FSNode.file "b.yaml" true] from rfl,
        walkGo_root_dir "r" "r" _ initSt (by decide) (by decide)]
    rfl
  rw [walkList_errEnt] at h1
  rw [show fsErrFirst = FSNode.dir "r" [FSNode.errEnt "a", FSNode.file "b.yaml" true] from rfl,
      filepathWalk_dir "r" "r" _ _ _ h1]
  rfl

theorem walk_fsErrLast :
    filepathWalk "r" fsErrLast
      = ({ Info := [("a", { ID := "a" })], Control := [], Subrepos := [],
           logs := [walkErrMsg] }, some WErr.fsErr) := by
  have h1 : walkGo "r" "r" fsErrLast initSt
      = walkList "r" "r" [FSNode.file "a.yaml" true, FSNode.errEnt "c"] initSt := by
    rw [show fsErrLast = FSNode.dir "r" [FSNode.file "a.yaml" true, FSNode.errEnt "c"] from rfl,
        walkGo_root_dir "r" "r" _ initSt (by decide) (by decide)]
    rfl
  rw [walkList_file "r" "r" "a.yaml" true _ initSt (by decide) (by decide)] at h1
  rw [show loadInfoSt initSt ("r" ++ "/" ++ "a.yaml") true
        = { Info := [("a", { ID := "a" })], Control := [], Subrepos := [], logs := [] }
      from rfl] at h1
  rw [walkList_errEnt] at h1
  rw [show fsErrLast = FSNode.dir "r" [FSNode.file "a.yaml" true, FSNode.errEnt "c"] from rfl,
      filepathWalk_dir "r" "r" _ _ _ h1]
  rfl

theorem walk_fsHiddenFile :
    filepathWalk "r" fsHiddenFile
      = ({ Info := [], Control := [], Subrepos := [], logs := [] }, none) := by
  have h1 : walkGo "r" "r" fsHiddenFile initSt
      = walkList "r" "r" [FSNode.file ".a" true, FSNode.file "b.yaml" true] initSt := by
    rw [show fsHiddenFile = FSNode.dir "r" [FSNode.file ".a" true, FSNode.file "b.yaml" true]
          from rfl,
        walkGo_root_dir "r" "r" _ initSt (by decide) (by decide)]
    rfl
  rw [walkList_hidden_file "r" "r" ".a" true _ initSt (by decide)] at h1
  rw [show fsHiddenFile = FSNode.dir "r" [FSNode.file ".a" true, FSNode.file "b.yaml" true]
        from rfl,
      filepathWalk_dir "r" "r" _ _ _ h1]
  rfl

theorem walk_fsHiddenDir :
    filepathWalk "r" fsHiddenDir
      = ({ Info := [("b", { ID := "b" })], Control := [], Subrepos := [], logs := [] }, none) := by
  have h1 : walkGo "r" "r" fsHiddenDir initSt
      = walkList "r" "r"
          [FSNode.dir ".git" [FSNode.file "x.yaml" true], FSNode.file "b.yaml" true] initSt := by
    rw [show fsHiddenDir
          = FSNode.dir "r" [FSNode.dir ".git" [FSNode.file "x.yaml" true],
              FSNode.file "b.yaml" true] from rfl,
        walkGo_root_dir "r" "r" _ initSt (by decide) (by decide)]
    rfl
  rw [walkList_hidden_dir "r" "r" ".git" _ _ initSt (by decide)] at h1
  rw [walkList_file "r" "r" "b.yaml" true _ initSt (by decide) (by decide)] at h1
  rw [show loadInfoSt initSt ("r" ++ "/" ++ "b.yaml") true
        = { Info := [("b", { ID := "b" })], Control := [], Subrepos := [], logs := [] }
      from rfl] at h1
  rw [walkList_nil] at h1
  rw [show fsHiddenDir
        = FSNode.dir "r" [FSNode.dir ".git" [FSNode.file "x.yaml" true],
            FSNode.file "b.yaml" true] from rfl,
      filepathWalk_dir "r" "r" _ _ _ h1]
  rfl

/-- C3 (evaluation at the failing input): building a node whose document
fails to parse logs the failure, but the node's document map is not left
without an entry from that document — the zero-value document is filed under
the empty identity (`loadInfo` stores unconditionally after logging), while
the good sibling also appears. -/
theorem c3_bad_doc_eval :
    Repo.Info (NewRepo "r" fsBadDoc) = [("", { ID := "" }), ("good", { ID := "good" })]
    ∧ getA (Repo.Info (NewRepo "r" fsBadDoc)) "" = some { ID := "" }
    ∧ Repo.Control (NewRepo "r" fsBadDoc) = []
    ∧ NewRepoLogs "r" fsBadDoc = [loadErrMsg] := by
  rw [NewRepo_eq "r" fsBadDoc _ _ walk_fsBadDoc, NewRepoLogs_eq "r" fsBadDoc _ _ walk_fsBadDoc]
  refine ⟨rfl, by decide, rfl, rfl⟩

/-- Counterexample to C4: with a traversal error at the first entry of the
walk order, the sibling document visited by the same walk does not
contribute — the node's maps come out empty (the walk aborts), though the
error is logged. -/
theorem c4_counterexample :
    Repo.Info (NewRepo "r" fsErrFirst) = []
    ∧ getA (Repo.Info (NewRepo "r" fsErrFirst)) "b" = none
    ∧ Repo.Subrepos (NewRepo "r" fsErrFirst) = []
    ∧ NewRepoLogs "r" fsErrFirst = [walkErrMsg] := by
  rw [NewRepo_eq "r" fsErrFirst _ _ walk_fsErrFirst,
    NewRepoLogs_eq "r" fsErrFirst _ _ walk_fsErrFirst]
  refine ⟨rfl, by decide, rfl, rfl⟩

/-- C4 amended: a traversal error at one path is logged and aborts the
remainder of that node's walk — the walk function returns the error, which
is not `SkipDir`, so the entry loop stops and no later entry is visited;
entries already processed are kept, and `NewRepo` discards the walk's error,
so the node is still returned and the wider build continues. -/
theorem c4_amended_walk_abort :
    (∀ (root path nm : String) (rest : List FSNode) (st : BuildSt),
        walkList root path (FSNode.errEnt nm :: rest) st
          = ({ st with logs := st.logs ++ [walkErrMsg] }, some WErr.fsErr))
    ∧ Repo.Info (NewRepo "r" fsErrLast) = [("a", { ID := "a" })]
    ∧ NewRepoLogs "r" fsErrLast = [walkErrMsg] := by
  refine ⟨walkList_errEnt, ?_, ?_⟩
  · rw [NewRepo_eq "r" fsErrLast _ _ walk_fsErrLast]
    rfl
  · rw [NewRepoLogs_eq "r" fsErrLast _ _ walk_fsErrLast]

/-- C5 (evaluation at the failing input): a token that matches neither map
overwrites the cursor with the zero-value node before the loop breaks, so
the terminal listing is empty instead of showing the current node's
sub-repository and document identities; the other branches behave as
described (document hand-off with the remaining tokens, descent into a
sub-repository, listing of the reached node). -/
theorem c5_unmatched_token_eval :
    Repo.Execute topRepo ["nope"] = RepoOutcome.listing [] []
    ∧ Repo.SubrepoKeys topRepo = ["sub"]
    ∧ Repo.Keys topRepo = ["doc"]
    ∧ Repo.Execute topRepo [] = RepoOutcome.listing ["sub"] ["doc"]
    ∧ Repo.Execute topRepo ["doc", "x", "y"] = RepoOutcome.docResolution { ID := "doc" } ["x", "y"]
    ∧ Repo.Execute topRepo ["sub"] = RepoOutcome.listing [] [] := by
  refine ⟨rfl, rfl, rfl, rfl, rfl, rfl⟩

/-- Counterexample to C6: a hidden file sorts first in its directory and its
`SkipDir` return aborts the walk of the remaining entries, so the non-hidden
sibling document is not filed — the node's document map is empty. -/
theorem c6_counterexample :
    Repo.Info (NewRepo "r" fsHiddenFile) = []
    ∧ getA (Repo.Info (NewRepo "r" fsHiddenFile)) "b" = none := by
  rw [NewRepo_eq "r" fsHiddenFile _ _ walk_fsHiddenFile]
  refine ⟨rfl, by decide⟩

/-- C6 amended: a hidden entry never contributes to a node's maps; a hidden
directory is skipped together with its entire subtree and the walk continues
with its siblings, but a hidden file ends the walk of its containing
directory (`SkipDir` from a non-directory), so entries after it in the walk
order are skipped as well. -/
theorem c6_amended_hidden :
    (∀ (root path nm : String) (cs rest : List FSNode) (st : BuildSt),
        strBegins (baseName (path ++ "/" ++ nm)) "." = true →
        walkList root path (FSNode.dir nm cs :: rest) st = walkList root path rest st)
    ∧ (∀ (root path nm : String) (pb : Bool) (rest : List FSNode) (st : BuildSt),
        strBegins (baseName (path ++ "/" ++ nm)) "." = true →
        walkList root path (FSNode.file nm pb :: rest) st = (st, some WErr.skipDir))
    ∧ Repo.Info (NewRepo "r" fsHiddenDir) = [("b", { ID := "b" })]
    ∧ Repo.Control (NewRepo "r" fsHiddenDir) = []
    ∧ Repo.Subrepos (NewRepo "r" fsHiddenDir) = [] := by
  refine ⟨?_, ?_, ?_, ?_, ?_⟩
  · intro root path nm cs rest st hdot
    exact walkList_hidden_dir root path nm cs rest st hdot
  · intro root path nm pb rest st hdot
    exact walkList_hidden_file root path nm pb rest st hdot
  · rw [NewRepo_eq "r" fsHiddenDir _ _ walk_fsHiddenDir]
    rfl
  · rw [NewRepo_eq "r" fsHiddenDir _ _ walk_fsHiddenDir]
    rfl
  · rw [NewRepo_eq "r" fsHiddenDir _ _ walk_fsHiddenDir]
    rfl

/-- Witness for the amended C6: the hidden-entry equations applied to a
hidden directory and a hidden file. -/
theorem c6_witness :
    walkList "r" "r" [FSNode.dir ".git" [FSNode.file "x.yaml" true]] initSt
      = walkList "r" "r" [] initSt
    ∧ walkList "r" "r" [FSNode.file ".a" true] initSt = (initSt, some WErr.skipDir) := by
  constructor
  · exact c6_amended_hidden.1 "r" "r" ".git" [FSNode.file "x.yaml" true] [] initSt (by decide)
  · exact c6_amended_hidden.2.1 "r" "r" ".a" true [] initSt (by decide)
